import Mathlib

/-!
Verification of the oc-wasm-safe crate: a shallow embedding of the
resource-handle ownership model, capability tokens, error taxonomy and the
two-phase invocation protocol of the crate, together with proofs of the
specified properties.

Conventions of the embedding:
* Machine integers are `Nat` or `Int`; wrapping is written with an explicit
  `% 2 ^ 32` where the source relies on release-mode wrapping semantics.
* Host system calls (the oc-wasm-sys boundary) are modelled by passing the
  signed integer the host would return as an explicit argument, and by
  recording the notifications the wrapper sends to the host as a list of
  `HostEvent` values.
* Functions that can panic or execute a Wasm trap (the panic_or_trap macro,
  or an overflow/unwrap failure) return an outcome type with an explicit
  trap constructor instead of diverging.
-/

namespace OcWasmSafe

/-- The errors that a system call can return (src/error.rs, enum Error). -/
inductive Error where
  | CborDecode
  | BufferTooShort
  | NoSuchComponent
  | NoSuchMethod
  | BadParameters
  | QueueFull
  | QueueEmpty
  | BadDescriptor
  | TooManyDescriptors
  | Other
  | Unknown
deriving DecidableEq, Repr

/-- Outcome of checking a host status code: a nonnegative payload, a decoded
error, or a trap raised by the panic_or_trap macro. -/
inductive SysOutcome where
  | ok (n : Nat)
  | err (e : Error)
  | trap
deriving DecidableEq, Repr

/-- Embedding of Error::from_isize (src/error.rs lines 85-106): the match on
the signed status code, with the two match arms that invoke panic_or_trap
rendered as the trap outcome. -/
def from_isize (value : Int) : SysOutcome :=
  if value = -1 then .trap
  else if value = -2 then .err .CborDecode
  else if value = -3 then .trap
  else if value = -4 then .err .BufferTooShort
  else if value = -5 then .err .NoSuchComponent
  else if value = -6 then .err .NoSuchMethod
  else if value = -7 then .err .BadParameters
  else if value = -8 then .err .QueueFull
  else if value = -9 then .err .QueueEmpty
  else if value = -10 then .err .BadDescriptor
  else if value = -11 then .err .TooManyDescriptors
  else if value = -12 then .err .Other
  else if value < 0 then .err .Unknown
  else .ok value.toNat

/-- Embedding of Error::from_i32 (src/error.rs lines 122-128): the i32 value
is widened to isize and checked with from_isize. -/
def from_i32 (value : Int) : SysOutcome :=
  from_isize value

/-- The notifications the safe layer sends to the host, that is, the
oc-wasm-sys calls that matter for resource lifetime accounting. -/
inductive HostEvent where
  | close (descriptor : Nat)
  | invokeEnd
  | invokeCancel
deriving DecidableEq, Repr

/-- An owned opaque value descriptor (src/descriptor.rs, struct Owned). The
stored number is the NonZeroU32 niche value, which is the raw descriptor
plus one; every construction site in the source establishes that it is
nonzero and small. -/
structure Owned where
  val : Nat
deriving DecidableEq, Repr

/-- Owned::new (src/descriptor.rs lines 83-88): wraps a raw descriptor,
storing raw + 1 in the NonZeroU32. -/
def Owned.new (raw : Nat) : Owned := ⟨raw + 1⟩

/-- Owned::as_raw (src/descriptor.rs lines 104-106): the stored value minus
one. -/
def Owned.as_raw (o : Owned) : Nat := o.val - 1

/-- impl Drop for Owned (src/descriptor.rs lines 145-153): dropping the
value sends one close notification carrying the raw descriptor value. -/
def Owned.dropEvents (o : Owned) : List HostEvent := [.close o.as_raw]

/-- Owned::into_inner (src/descriptor.rs lines 96-100): returns the raw
value and forgets the object, so the Drop glue never runs and no host
notification is sent. -/
def Owned.into_inner (o : Owned) : Nat × List HostEvent := (o.as_raw, [])

/-- The ways the lifetime of an Owned value can end. Rust affine-type
semantics guarantee that each value ends exactly once: either some exit
path drops it, or Owned::into_inner consumes it and forgets it. No other
method of the module skips the Drop glue: into_descriptor returns the value
itself and dup leaves self alive. -/
inductive OwnedExit where
  | drop
  | intoInner
deriving DecidableEq, Repr

/-- The host notifications emitted when the lifetime of an Owned value ends
along the given path. -/
def Owned.exitEvents (o : Owned) : OwnedExit → List HostEvent
  | .drop => o.dropEvents
  | .intoInner => o.into_inner.2

/-- The number of close notifications for a given raw descriptor in a list
of host events. -/
def closeCount (events : List HostEvent) (raw : Nat) : Nat :=
  events.count (.close raw)

/-- The three process-wide take-once token kinds of src/component.rs: the
component Lister, the MethodLister and the Invoker. -/
inductive TokenKind where
  | lister
  | methodLister
  | invoker
deriving DecidableEq, Repr

/-- The three static INSTANCE cells of src/component.rs (lines 29, 231 and
532): each holds the not-yet-taken token of its kind. The token payloads
are unit structs, modelled as Unit. -/
structure ComponentStatics where
  listerInstance : Option Unit
  methodListerInstance : Option Unit
  invokerInstance : Option Unit
deriving DecidableEq, Repr

/-- The cells at process start: each static is initialised to Some. -/
def initialStatics : ComponentStatics := ⟨some (), some (), some ()⟩

/-- The cell belonging to a given token kind. -/
def ComponentStatics.cell (s : ComponentStatics) : TokenKind → Option Unit
  | .lister => s.listerInstance
  | .methodLister => s.methodListerInstance
  | .invoker => s.invokerInstance

/-- Lister::take, MethodLister::take and Invoker::take (src/component.rs
lines 28-33, 230-235 and 531-536): Option::take on the INSTANCE cell of
that kind, returning the previous contents and leaving None behind. -/
def takeToken (k : TokenKind) (s : ComponentStatics) :
    Option Unit × ComponentStatics :=
  match k with
  | .lister => (s.listerInstance, { s with listerInstance := none })
  | .methodLister => (s.methodListerInstance, { s with methodListerInstance := none })
  | .invoker => (s.invokerInstance, { s with invokerInstance := none })

/-- Runs a sequence of take calls from a given state of the static cells,
collecting the Option returned by each call. -/
def runTakes : List TokenKind → ComponentStatics → List (Option Unit) × ComponentStatics
  | [], s => ([], s)
  | k :: ks, s =>
    let step := takeToken k s
    let rest := runTakes ks step.2
    (step.1 :: rest.1, rest.2)

/-- One data item at the minicbor encoder/decoder boundary as used by
src/descriptor.rs: a tag head or an unsigned integer. The byte-level CBOR
wire format lives inside the external minicbor crate; the embedding models
that boundary at the item level: Encoder::tag appends a tag item,
Encoder::u32 appends an integer item, Decoder::tag and Decoder::u32 read
one item of the matching shape or fail. -/
inductive CborItem where
  | tag (n : Nat)
  | u32 (v : Nat)
deriving DecidableEq, Repr

/-- The Identifier CBOR tag number (src/descriptor.rs line 18). -/
def IDENTIFIER : Nat := 39

/-- cbor_encode (src/descriptor.rs lines 23-29): an integer carrying the
Identifier tag. -/
def cbor_encode (descriptor : Nat) : List CborItem :=
  [.tag IDENTIFIER, .u32 descriptor]

/-- impl Encode for Owned (src/descriptor.rs lines 155-163): cbor_encode of
the raw value. -/
def Owned.encode (o : Owned) : List CborItem := cbor_encode o.as_raw

/-- A CBOR-decoded opaque value descriptor (src/descriptor.rs, struct
Decoded); like Owned it stores the raw descriptor plus one in a
NonZeroU32. -/
structure Decoded where
  val : Nat
deriving DecidableEq, Repr

/-- The raw descriptor value held by a Decoded, as read back by Debug
formatting and by into_owned followed by as_raw: the stored value minus
one. -/
def Decoded.raw (d : Decoded) : Nat := d.val - 1

/-- The result of running a decoder: a value plus the remaining input, a
CBOR decode error carrying a message, or a Rust panic / abort. -/
inductive DecodeOutcome (α : Type) where
  | ok (value : α) (rest : List CborItem)
  | err (msg : String)
  | panicked
deriving DecidableEq, Repr

/-- impl Decode for Decoded (src/descriptor.rs lines 252-263): read a tag,
require it to be Identifier, read a u32, add one and store the sum in a
NonZeroU32. The sum uses release-mode wrapping u32 arithmetic, written here
as an explicit mod 2 ^ 32, and NonZeroU32::new of zero followed by unwrap
panics; on a debug build the overflow check on the addition panics at the
same input, so both build modes abort when the integer is 2 ^ 32 - 1. -/
def Decoded.decode (input : List CborItem) : DecodeOutcome Decoded :=
  match input with
  | .tag t :: rest =>
    if t ≠ IDENTIFIER then .err "expected Identifier tag"
    else
      match rest with
      | .u32 v :: rest2 =>
        if v < 2 ^ 32 then
          let stored := (v + 1) % 2 ^ 32
          if stored = 0 then .panicked else .ok ⟨stored⟩ rest2
        else .err "unsigned integer overflow"
      | _ => .err "expected unsigned integer"
  | _ => .err "expected tag"

/-- An in-progress method call (src/component.rs, struct MethodCall). In
the source the struct is a zero-sized invoker-lifetime phantom; the
embedding gives it an abstract identity so that handing back the same call
value can be stated. -/
structure MethodCall where
  id : Nat
deriving DecidableEq, Repr

/-- impl Drop for MethodCall (src/component.rs lines 806-811): dropping a
call sends one invoke_cancel notification. -/
def MethodCall.dropEvents (_c : MethodCall) : List HostEvent := [.invokeCancel]

/-- The possible results of a successful start to a method call
(src/component.rs, enum InvokeResult; the spec calls it the completion
hint). -/
inductive InvokeResult where
  | Complete
  | Incomplete
deriving DecidableEq, Repr

/-- What a start function of the Invoker does at the process level: return
a completion hint and a call, return an error, or trap. -/
inductive StartOutcome where
  | ok (hint : InvokeResult) (call : MethodCall)
  | error (e : Error)
  | trapped
deriving DecidableEq, Repr

/-- Common body of the five start functions of Invoker (component_method,
value, value_method, value_indexed_read and value_indexed_write,
src/component.rs lines 552-729): the five differ only in which oc-wasm-sys
invoke entry point receives the marshalled target and parameters; each one
checks the i32 returned by the host with Error::from_i32 and pairs a fresh
MethodCall with Complete when the payload is nonzero and Incomplete when
it is zero. hostRet is the value the host returns and newCall the fresh
call value. -/
def invokeStart (hostRet : Int) (newCall : MethodCall) : StartOutcome :=
  match from_i32 hostRet with
  | .trap => .trapped
  | .err e => .error e
  | .ok n => .ok (if n ≠ 0 then .Complete else .Incomplete) newCall

/-- Invoker::component_method (src/component.rs lines 552-580). -/
def Invoker.component_method (hostRet : Int) (newCall : MethodCall) : StartOutcome :=
  invokeStart hostRet newCall

/-- Invoker::value (src/component.rs lines 595-613). -/
def Invoker.value (hostRet : Int) (newCall : MethodCall) : StartOutcome :=
  invokeStart hostRet newCall

/-- Invoker::value_indexed_read (src/component.rs lines 628-649). -/
def Invoker.value_indexed_read (hostRet : Int) (newCall : MethodCall) : StartOutcome :=
  invokeStart hostRet newCall

/-- Invoker::value_indexed_write (src/component.rs lines 665-686). -/
def Invoker.value_indexed_write (hostRet : Int) (newCall : MethodCall) : StartOutcome :=
  invokeStart hostRet newCall

/-- Invoker::value_method (src/component.rs lines 702-729). -/
def Invoker.value_method (hostRet : Int) (newCall : MethodCall) : StartOutcome :=
  invokeStart hostRet newCall

/-- The host contract for the five invoke start entry points (spec sections
4.5 and 6): the host returns 1 for complete, 0 for incomplete, or one of
the start-time error codes CborDecode (-2), BadDescriptor (-10) and
TooManyDescriptors (-11). -/
def invokeStartContract (v : Int) : Prop :=
  v = 0 ∨ v = 1 ∨ v = -2 ∨ v = -10 ∨ v = -11

instance {ε α : Type} [DecidableEq ε] [DecidableEq α] :
    DecidableEq (Except ε α) := fun a b =>
  match a, b with
  | .ok x, .ok y =>
    if h : x = y then .isTrue (by rw [h])
    else .isFalse (by intro hc; injection hc; exact h (by assumption))
  | .error x, .error y =>
    if h : x = y then .isTrue (by rw [h])
    else .isFalse (by intro hc; injection hc; exact h (by assumption))
  | .ok _, .error _ => .isFalse (by intro hc; exact Except.noConfusion hc)
  | .error _, .ok _ => .isFalse (by intro hc; exact Except.noConfusion hc)

/-- The result of a call to MethodCall::end (src/component.rs, enum
InvokeEndResult), with the Rust Result of Done carried as an Except. -/
inductive InvokeEndResult where
  | Done (result : Except Error Nat)
  | BufferTooShort (call : MethodCall)
  | Pending (call : MethodCall)
deriving DecidableEq, Repr

/-- What MethodCall::end does at the process level: return a result or
trap. -/
inductive EndOutcome where
  | returns (r : InvokeEndResult)
  | trapped
deriving DecidableEq, Repr

/-- MethodCall::end (src/component.rs lines 795-803): check the isize the
host returns from invoke_end for the given buffer; BufferTooShort and
QueueEmpty hand self back, every other outcome becomes Done. The second
component is the list of host notifications sent during the call: the
invoke_end syscall itself, followed, in the Done branches only, by the
invoke_cancel that the Drop glue sends because self is consumed and goes
out of scope at the end of the function body without being returned.
hostRet is the value the host returns from invoke_end. -/
def MethodCall.end_ (c : MethodCall) (hostRet : Int) : EndOutcome × List HostEvent :=
  match from_isize hostRet with
  | .err .BufferTooShort => (.returns (.BufferTooShort c), [.invokeEnd])
  | .err .QueueEmpty => (.returns (.Pending c), [.invokeEnd])
  | .err e => (.returns (.Done (.error e)), [.invokeEnd] ++ c.dropEvents)
  | .ok n => (.returns (.Done (.ok n)), [.invokeEnd] ++ c.dropEvents)
  | .trap => (.trapped, [.invokeEnd])

/-- The result of a call to MethodCall::end_length (src/component.rs, enum
InvokeEndLengthResult): Done carries the length together with the still
live call on success, and Pending hands the call back. -/
inductive InvokeEndLengthResult where
  | Done (result : Except Error (Nat × MethodCall))
  | Pending (call : MethodCall)
deriving DecidableEq, Repr

/-- What MethodCall::end_length does at the process level: return a result
or trap. -/
inductive EndLengthOutcome where
  | returns (r : InvokeEndLengthResult)
  | trapped
deriving DecidableEq, Repr

/-- MethodCall::end_length (src/component.rs lines 769-776): check the
isize the host returns from invoke_end called with a null buffer
(call_buffer_len, src/helpers.rs lines 32-34); a length keeps self alive
inside Done, QueueEmpty hands self back as Pending, and every other error
becomes Done with that error, dropping self. The second component lists
the host notifications sent, as for MethodCall::end. -/
def MethodCall.end_length (c : MethodCall) (hostRet : Int) :
    EndLengthOutcome × List HostEvent :=
  match from_isize hostRet with
  | .ok n => (.returns (.Done (.ok (n, c))), [.invokeEnd])
  | .err .QueueEmpty => (.returns (.Pending c), [.invokeEnd])
  | .err e => (.returns (.Done (.error e)), [.invokeEnd] ++ c.dropEvents)
  | .trap => (.trapped, [.invokeEnd])

/-- The host contract for invoke_end (spec sections 4.5 and 6): a
nonnegative byte count, BufferTooShort (-4), QueueEmpty (-9) while the
call result is not yet available, or one of the call failure codes
NoSuchComponent (-5), NoSuchMethod (-6), BadParameters (-7) and Other
(-12). -/
def invokeEndContract (v : Int) : Prop :=
  0 ≤ v ∨ v = -4 ∨ v = -9 ∨ v = -5 ∨ v = -6 ∨ v = -7 ∨ v = -12

/-- The possible attributes of a method (src/component.rs, struct
MethodAttributes). -/
structure MethodAttributes where
  direct : Bool
  getter : Bool
  setter : Bool
deriving DecidableEq, Repr

/-- impl From of u32 for MethodAttributes (src/component.rs lines 298-306):
direct is bit 0, getter is bit 1 and setter is bit 2 of the mask. -/
def MethodAttributes.fromBits (value : Nat) : MethodAttributes :=
  ⟨value &&& 1 != 0, value &&& 2 != 0, value &&& 4 != 0⟩

/-- Modelled from the spec: the host side of the methods-next syscall and
the server-tracked method listing cursor, which live outside this
repository (the oc-wasm-sys entry point sys::methods_next and the host).
Spec sections 4.4 and 6: the cursor is a host-side sequence of entries,
each a method name plus an attribute bitmask; advancing with a buffer too
small for the next name returns BufferTooShort without advancing the
cursor; when no entry remains the host writes nothing and returns 0. Names
are modelled as their UTF-8 byte lists and method names are nonempty. The
first component holds the returned isize, the attribute mask written
through the out pointer and the bytes written into the buffer; the second
component is the cursor state after the call. -/
def methods_next (state : List (List Nat × Nat)) (bufLen : Nat) :
    (Int × Nat × List Nat) × List (List Nat × Nat) :=
  match state with
  | [] => ((0, 0, []), [])
  | (name, attrs) :: rest =>
    if bufLen < name.length then ((-4, 0, []), state)
    else (((name.length : Int), attrs, name), rest)

/-- What MethodListing::next does at the process level: an entry, the
signal that no entry remains, an error, or a trap. -/
inductive NextOutcome where
  | ok (entry : Option (List Nat × MethodAttributes))
  | error (e : Error)
  | trapped
deriving DecidableEq, Repr

/-- MethodListing::next (src/component.rs lines 345-371): call methods_next
with the buffer, check the returned isize with Error::from_isize, map zero
bytes written to exhaustion, and otherwise return the written prefix of
the buffer together with the attribute mask decoded into a
MethodAttributes. The cursor state after the call is returned alongside. -/
def MethodListing.next (state : List (List Nat × Nat)) (bufLen : Nat) :
    NextOutcome × List (List Nat × Nat) :=
  let step := methods_next state bufLen
  match from_isize step.1.1 with
  | .trap => (.trapped, step.2)
  | .err e => (.error e, step.2)
  | .ok n =>
    if n = 0 then (.ok none, step.2)
    else (.ok (some (step.1.2.2, MethodAttributes.fromBits step.1.2.1)), step.2)

end OcWasmSafe

namespace OcWasmSafe

/-- Every nonnegative status code is returned unchanged as a payload. -/
theorem from_isize_nonneg (v : Int) (h : 0 ≤ v) :
    from_isize v = SysOutcome.ok v.toNat := by
  rw [from_isize]
  iterate 13 rw [if_neg (by omega)]

/-- Every status code below the known range decodes to Unknown. -/
theorem from_isize_unknown (v : Int) (h : v < -12) :
    from_isize v = SysOutcome.err Error.Unknown := by
  rw [from_isize]
  iterate 12 rw [if_neg (by omega)]
  rw [if_pos (by omega)]

/-- The panic_or_trap arms are reached exactly on the MemoryFault and
StringDecode codes -1 and -3. -/
theorem from_isize_trap_iff (v : Int) :
    from_isize v = SysOutcome.trap ↔ v = -1 ∨ v = -3 := by
  constructor
  · intro h
    by_contra hc
    push_neg at hc
    obtain ⟨h1, h3⟩ := hc
    rcases le_or_lt 0 v with hv | hv
    · rw [from_isize_nonneg v hv] at h
      exact SysOutcome.noConfusion h
    · rcases lt_or_le v (-12) with hv2 | hv2
      · rw [from_isize_unknown v hv2] at h
        exact SysOutcome.noConfusion h
      · interval_cases v <;> simp_all <;> exact SysOutcome.noConfusion h
  · intro h
    rcases h with h | h <;> subst h <;> rfl

/-- C3: Error::from_isize is total on its non-trapping domain: nonnegative
inputs come back as ok of the same value; the codes -2 and -4 through -12
map to the ten specific errors; every other negative code (below -12) maps
to Unknown; and the function traps exactly on the inputs -1 and -3. -/
theorem from_isize_total_map (v : Int) :
    (0 ≤ v → from_isize v = SysOutcome.ok v.toNat) ∧
    (v < -12 → from_isize v = SysOutcome.err Error.Unknown) ∧
    (from_isize v = SysOutcome.trap ↔ v = -1 ∨ v = -3) ∧
    from_isize (-2) = SysOutcome.err Error.CborDecode ∧
    from_isize (-4) = SysOutcome.err Error.BufferTooShort ∧
    from_isize (-5) = SysOutcome.err Error.NoSuchComponent ∧
    from_isize (-6) = SysOutcome.err Error.NoSuchMethod ∧
    from_isize (-7) = SysOutcome.err Error.BadParameters ∧
    from_isize (-8) = SysOutcome.err Error.QueueFull ∧
    from_isize (-9) = SysOutcome.err Error.QueueEmpty ∧
    from_isize (-10) = SysOutcome.err Error.BadDescriptor ∧
    from_isize (-11) = SysOutcome.err Error.TooManyDescriptors ∧
    from_isize (-12) = SysOutcome.err Error.Other := by
  refine ⟨from_isize_nonneg v, from_isize_unknown v, from_isize_trap_iff v,
    ?_, ?_, ?_, ?_, ?_, ?_, ?_, ?_, ?_, ?_⟩
  all_goals rfl

/-- Witness for C3: the hypothesis-bearing conjuncts applied at concrete
inputs 7 and -13. -/
theorem from_isize_total_map_witness :
    from_isize 7 = SysOutcome.ok 7 ∧
    from_isize (-13) = SysOutcome.err Error.Unknown :=
  ⟨(from_isize_total_map 7).1 (by decide),
   (from_isize_total_map (-13)).2.1 (by decide)⟩

/-- A take call returns the current contents of the cell of its kind. -/
theorem takeToken_fst (k : TokenKind) (s : ComponentStatics) :
    (takeToken k s).1 = s.cell k := by
  cases k <;> rfl

/-- A take call empties the cell of its kind and leaves the other two
cells unchanged. -/
theorem takeToken_cell (k k2 : TokenKind) (s : ComponentStatics) :
    ((takeToken k s).2).cell k2 = if k2 = k then none else s.cell k2 := by
  cases k <;> cases k2 <;> simp [takeToken, ComponentStatics.cell]

/-- A run of take calls produces one result per call. -/
theorem runTakes_length (ks : List TokenKind) (s : ComponentStatics) :
    (runTakes ks s).1.length = ks.length := by
  induction ks generalizing s with
  | nil => rfl
  | cons k ks ih => simp [runTakes, ih]

/-- After a run of take calls, a cell is empty exactly when its kind
occurred in the run. -/
theorem runTakes_cell (ks : List TokenKind) (s : ComponentStatics) (k : TokenKind) :
    ((runTakes ks s).2).cell k = if k ∈ ks then none else s.cell k := by
  induction ks generalizing s with
  | nil => simp [runTakes]
  | cons k2 ks ih =>
    simp only [runTakes]
    rw [ih, takeToken_cell]
    by_cases h1 : k ∈ ks <;> by_cases h2 : k = k2 <;> simp [h1, h2]

/-- The result of the i-th take call in a run is the contents that the cell
of its kind holds after the first i calls. -/
theorem runTakes_get (ks : List TokenKind) (s : ComponentStatics) (i : Nat)
    (hi : i < ks.length) (hi2 : i < (runTakes ks s).1.length) :
    (runTakes ks s).1.get ⟨i, hi2⟩ =
      ((runTakes (ks.take i) s).2).cell (ks.get ⟨i, hi⟩) := by
  induction ks generalizing s i with
  | nil => exact absurd hi (by simp)
  | cons k ks ih =>
    cases i with
    | zero =>
      simp only [runTakes, List.take, List.get]
      exact takeToken_fst k s
    | succ i =>
      simp only [runTakes, List.take, List.get]
      exact ih (takeToken k s).2 i (by simpa using hi)
        (by rw [runTakes_length]; simpa using hi)

/-- At process start every cell is full. -/
theorem initial_cell (k : TokenKind) : initialStatics.cell k = some () := by
  cases k <;> rfl

/-- C2: for every sequence of take calls in one process, for each of the
three token kinds independently, the first call on a kind returns Some and
every later call on that kind returns None. -/
theorem take_first_only (ks : List TokenKind) (i : Nat) (hi : i < ks.length) :
    (runTakes ks initialStatics).1.get ⟨i, by rw [runTakes_length]; exact hi⟩ =
      if ks.get ⟨i, hi⟩ ∈ ks.take i then none else some () := by
  rw [runTakes_get ks initialStatics i hi, runTakes_cell, initial_cell]

/-- Witness for C2: in the concrete run invoker, lister, invoker, the call
at index 0 returns Some and the repeated invoker call at index 2 returns
None. -/
theorem take_first_only_witness :
    (runTakes [TokenKind.invoker, TokenKind.lister, TokenKind.invoker]
        initialStatics).1.get ⟨0, by decide⟩ = some () ∧
    (runTakes [TokenKind.invoker, TokenKind.lister, TokenKind.invoker]
        initialStatics).1.get ⟨2, by decide⟩ = none := by
  constructor
  · have h := take_first_only
      [TokenKind.invoker, TokenKind.lister, TokenKind.invoker] 0 (by decide)
    simpa using h
  · have h := take_first_only
      [TokenKind.invoker, TokenKind.lister, TokenKind.invoker] 2 (by decide)
    simpa using h

/-- C1: over the lifetime of an Owned descriptor exactly one close
notification is sent to the host: the drop path emits exactly one close
carrying the raw descriptor value, and the only close-free ending is
into_inner, which emits no events and hands the raw value back to the
caller. -/
theorem owned_close_exactly_once (o : Owned) :
    (∀ p : OwnedExit, closeCount (o.exitEvents p) o.as_raw =
      if p = OwnedExit.intoInner then 0 else 1) ∧
    o.exitEvents OwnedExit.drop = [HostEvent.close o.as_raw] ∧
    o.into_inner = (o.as_raw, []) := by
  refine ⟨?_, rfl, rfl⟩
  intro p
  cases p <;> simp [Owned.exitEvents, Owned.dropEvents, Owned.into_inner, closeCount]

/-- C6: encoding an Owned descriptor with raw value 5 yields an integer
item carrying the Identifier tag 39; decoding that output yields a Decoded
descriptor whose raw value is also 5; and decoding any item carrying a tag
other than Identifier fails with a decode error. -/
theorem handle_encoding_roundtrip :
    Owned.encode (Owned.new 5) = [CborItem.tag 39, CborItem.u32 5] ∧
    Decoded.decode (Owned.encode (Owned.new 5)) =
      DecodeOutcome.ok (Decoded.mk 6) [] ∧
    Decoded.raw (Decoded.mk 6) = 5 ∧
    (∀ t, t ≠ IDENTIFIER → ∀ rest,
      Decoded.decode (CborItem.tag t :: rest) = .err "expected Identifier tag") := by
  refine ⟨rfl, by decide, rfl, ?_⟩
  intro t ht rest
  simp [Decoded.decode, ht]

/-- Witness for C6: the wrong-tag conjunct applied at the concrete tag 38. -/
theorem handle_encoding_roundtrip_witness :
    Decoded.decode [CborItem.tag 38, CborItem.u32 5] = .err "expected Identifier tag" :=
  handle_encoding_roundtrip.2.2.2 38 (by decide) [CborItem.u32 5]

/-- C9: decoding is not total over valid Identifier-tagged integers: at the
u32 maximum 2 ^ 32 - 1 the internal raw plus one representation wraps to
zero and the NonZeroU32 unwrap panics, while for every smaller integer
decoding succeeds and the resulting Decoded holds that raw value. -/
theorem decoded_decode_overflow :
    Decoded.decode [CborItem.tag 39, CborItem.u32 (2 ^ 32 - 1)] =
      DecodeOutcome.panicked ∧
    ∀ v, v < 2 ^ 32 - 1 →
      Decoded.decode [CborItem.tag 39, CborItem.u32 v] =
        DecodeOutcome.ok (Decoded.mk (v + 1)) [] ∧
      Decoded.raw (Decoded.mk (v + 1)) = v := by
  constructor
  · have h32 : (2 ^ 32 - 1 : Nat) < 2 ^ 32 := by norm_num
    have hmod : (2 ^ 32 - 1 + 1) % 2 ^ 32 = 0 := by norm_num
    simp [Decoded.decode, IDENTIFIER, h32, hmod]
  · intro v hv
    have h32 : v < 4294967296 := by omega
    have hmod : (v + 1) % 4294967296 = v + 1 := Nat.mod_eq_of_lt (by omega)
    refine ⟨?_, rfl⟩
    simp [Decoded.decode, IDENTIFIER, h32, hmod]

/-- Witness for C9: the below-maximum conjunct applied at the concrete
integer 7. -/
theorem decoded_decode_overflow_witness :
    Decoded.decode [CborItem.tag 39, CborItem.u32 7] =
      DecodeOutcome.ok (Decoded.mk 8) [] ∧
    Decoded.raw (Decoded.mk 8) = 7 :=
  decoded_decode_overflow.2 7 (by norm_num)

/-- C5: under the host contract for the invoke start entry points, every
successful start returns Complete exactly when the host returned 1 and
Incomplete exactly when it returned 0, a failed start surfaces exactly an
error among CborDecode, BadDescriptor and TooManyDescriptors, and the
other four start functions behave identically to component_method. -/
theorem invoke_start_hint (v : Int) (c : MethodCall) (h : invokeStartContract v) :
    (Invoker.component_method v c = StartOutcome.ok InvokeResult.Complete c ↔ v = 1) ∧
    (Invoker.component_method v c = StartOutcome.ok InvokeResult.Incomplete c ↔ v = 0) ∧
    (∀ e, Invoker.component_method v c = StartOutcome.error e →
      e = Error.CborDecode ∨ e = Error.BadDescriptor ∨ e = Error.TooManyDescriptors) ∧
    Invoker.value v c = Invoker.component_method v c ∧
    Invoker.value_method v c = Invoker.component_method v c ∧
    Invoker.value_indexed_read v c = Invoker.component_method v c ∧
    Invoker.value_indexed_write v c = Invoker.component_method v c := by
  refine ⟨?_, ?_, ?_, rfl, rfl, rfl, rfl⟩ <;>
    rcases h with h | h | h | h | h <;> subst h <;>
      simp [Invoker.component_method, invokeStart, from_i32, from_isize]

/-- Witness for C5: the contract discharged at the concrete host return 1,
where the hint is Complete. -/
theorem invoke_start_hint_witness :
    Invoker.component_method 1 (MethodCall.mk 0) =
      StartOutcome.ok InvokeResult.Complete (MethodCall.mk 0) :=
  (invoke_start_hint 1 (MethodCall.mk 0) (Or.inr (Or.inl rfl))).1.mpr rfl

/-- C4: under the host contract for invoke_end, MethodCall::end returns
exactly one of three shapes: Done with the byte count on a nonnegative
return, BufferTooShort handing back the same call on -4, Pending handing
back the same call on -9, and Done with one of NoSuchComponent,
NoSuchMethod, BadParameters and Other on every other contract error. -/
theorem end_trichotomy (c : MethodCall) (v : Int) (h : invokeEndContract v) :
    (0 ≤ v → (c.end_ v).1 = EndOutcome.returns (.Done (.ok v.toNat))) ∧
    (v = -4 → (c.end_ v).1 = EndOutcome.returns (.BufferTooShort c)) ∧
    (v = -9 → (c.end_ v).1 = EndOutcome.returns (.Pending c)) ∧
    (v < 0 → v ≠ -4 → v ≠ -9 →
      ∃ e, (e = Error.NoSuchComponent ∨ e = Error.NoSuchMethod ∨
            e = Error.BadParameters ∨ e = Error.Other) ∧
        (c.end_ v).1 = EndOutcome.returns (.Done (.error e))) := by
  refine ⟨?_, ?_, ?_, ?_⟩
  · intro hv
    unfold MethodCall.end_
    rw [from_isize_nonneg v hv]
  · intro hv
    subst hv
    rfl
  · intro hv
    subst hv
    rfl
  · intro hv h4 h9
    rcases h with h | h | h | h | h | h | h
    · exact absurd h (by omega)
    · exact absurd h h4
    · exact absurd h h9
    · exact ⟨Error.NoSuchComponent, Or.inl rfl, by subst h; rfl⟩
    · exact ⟨Error.NoSuchMethod, Or.inr (Or.inl rfl), by subst h; rfl⟩
    · exact ⟨Error.BadParameters, Or.inr (Or.inr (Or.inl rfl)), by subst h; rfl⟩
    · exact ⟨Error.Other, Or.inr (Or.inr (Or.inr rfl)), by subst h; rfl⟩

/-- Witness for C4: the contract discharged at the concrete host return -4,
where the same call is handed back inside BufferTooShort. -/
theorem end_trichotomy_witness :
    (MethodCall.end_ (MethodCall.mk 0) (-4)).1 =
      EndOutcome.returns (.BufferTooShort (MethodCall.mk 0)) :=
  (end_trichotomy (MethodCall.mk 0) (-4) (Or.inr (Or.inl rfl))).2.1 rfl

/-- C10: a MethodCall consumed with a terminal outcome notifies the host of
cancellation: when MethodCall::end returns any Done shape, or end_length
returns Done with an error, exactly one invoke_cancel is sent, after the
invoke_end syscall; the shapes that hand the call back (BufferTooShort and
Pending of end, Done with a length and Pending of end_length) send no
cancel. -/
theorem end_cancel_on_done (c : MethodCall) (v : Int) :
    (∀ r, (c.end_ v).1 = EndOutcome.returns (.Done r) →
      (c.end_ v).2 = [HostEvent.invokeEnd, HostEvent.invokeCancel]) ∧
    (∀ c2, (c.end_ v).1 = EndOutcome.returns (.BufferTooShort c2) →
      (c.end_ v).2 = [HostEvent.invokeEnd]) ∧
    (∀ c2, (c.end_ v).1 = EndOutcome.returns (.Pending c2) →
      (c.end_ v).2 = [HostEvent.invokeEnd]) ∧
    (∀ e, (c.end_length v).1 = EndLengthOutcome.returns (.Done (.error e)) →
      (c.end_length v).2 = [HostEvent.invokeEnd, HostEvent.invokeCancel]) ∧
    (∀ n c2, (c.end_length v).1 = EndLengthOutcome.returns (.Done (.ok (n, c2))) →
      (c.end_length v).2 = [HostEvent.invokeEnd]) ∧
    (∀ c2, (c.end_length v).1 = EndLengthOutcome.returns (.Pending c2) →
      (c.end_length v).2 = [HostEvent.invokeEnd]) := by
  unfold MethodCall.end_ MethodCall.end_length
  cases hfi : from_isize v with
  | ok n =>
    refine ⟨?_, ?_, ?_, ?_, ?_, ?_⟩ <;> intros <;> simp_all [MethodCall.dropEvents]
  | trap =>
    refine ⟨?_, ?_, ?_, ?_, ?_, ?_⟩ <;> intros <;> simp_all [MethodCall.dropEvents]
  | err e =>
    cases e <;>
      refine ⟨?_, ?_, ?_, ?_, ?_, ?_⟩ <;> intros <;> simp_all [MethodCall.dropEvents]

/-- Witness for C10: at the concrete host return 3 the end call is Done and
sends invoke_end followed by exactly one invoke_cancel. -/
theorem end_cancel_on_done_witness :
    (MethodCall.end_ (MethodCall.mk 0) 3).2 =
      [HostEvent.invokeEnd, HostEvent.invokeCancel] :=
  (end_cancel_on_done (MethodCall.mk 0) 3).1 (Except.ok 3) rfl

/-- An and-mask with a single power of two is nonzero exactly on the
corresponding bit. -/
theorem and_pow_ne (v i : Nat) : (v &&& 2 ^ i != 0) = v.testBit i := by
  rw [Nat.and_two_pow]
  cases h : v.testBit i <;> simp

/-- C8: attribute decoding reads the three low bits of the mask
independently: bit 0 is direct, bit 1 is getter, bit 2 is setter; in
particular the mask 5 decodes to direct and setter and the mask 2 decodes
to getter alone. -/
theorem method_attributes_bits (v : Nat) :
    ((MethodAttributes.fromBits v).direct = v.testBit 0 ∧
     (MethodAttributes.fromBits v).getter = v.testBit 1 ∧
     (MethodAttributes.fromBits v).setter = v.testBit 2) ∧
    MethodAttributes.fromBits 5 = MethodAttributes.mk true false true ∧
    MethodAttributes.fromBits 2 = MethodAttributes.mk false true false := by
  refine ⟨⟨?_, ?_, ?_⟩, by decide, by decide⟩
  · have h := and_pow_ne v 0
    norm_num at h
    simpa [MethodAttributes.fromBits] using h
  · have h := and_pow_ne v 1
    norm_num at h
    simpa [MethodAttributes.fromBits] using h
  · have h := and_pow_ne v 2
    norm_num at h
    simpa [MethodAttributes.fromBits] using h

/-- C7: a method listing cursor with a pending entry does not consume the
entry when advanced with a too-small buffer: the advance returns
BufferTooShort and leaves the cursor unchanged, and a subsequent advance
with an adequate buffer returns that same entry, name and attributes, and
only then consumes it. -/
theorem listing_too_short_preserves (name : List Nat) (attrs : Nat)
    (rest : List (List Nat × Nat)) (small big : Nat)
    (hsmall : small < name.length) (hbig : name.length ≤ big) :
    MethodListing.next ((name, attrs) :: rest) small =
      (NextOutcome.error Error.BufferTooShort, (name, attrs) :: rest) ∧
    MethodListing.next ((name, attrs) :: rest) big =
      (NextOutcome.ok (some (name, MethodAttributes.fromBits attrs)), rest) := by
  constructor
  · simp only [MethodListing.next, methods_next]
    rw [if_pos hsmall]
    rfl
  · simp only [MethodListing.next, methods_next]
    rw [if_neg (not_lt.mpr hbig)]
    rw [from_isize_nonneg (name.length : Int) (Int.natCast_nonneg _)]
    simp only [Int.toNat_natCast]
    rw [if_neg (by omega)]

/-- Witness for C7: the concrete entry with the three-byte name 102 111 111
and mask 5, advanced first with a two-byte and then with an eight-byte
buffer. -/
theorem listing_too_short_preserves_witness :
    MethodListing.next [([102, 111, 111], 5)] 2 =
      (NextOutcome.error Error.BufferTooShort, [([102, 111, 111], 5)]) ∧
    MethodListing.next [([102, 111, 111], 5)] 8 =
      (NextOutcome.ok (some ([102, 111, 111], MethodAttributes.fromBits 5)), []) :=
  listing_too_short_preserves [102, 111, 111] 5 [] 2 8 (by decide) (by decide)

end OcWasmSafe
